import Mathlib

/-!
Verification of the random-coffee Telegram bot (Go sources: `cmd/main.go`,
the `database` package, and the SQL migration) against its natural-language
specification.  Go values are embedded shallowly: Go strings become byte
lists (`GoStr`), SQL tables become lists of row records, fallible calls get
explicit outcome parameters, and the `ORDER BY RANDOM()` shuffle is handled
by quantifying over permutations of the canonical result list.
-/

set_option maxRecDepth 20000

/-- A Go string, viewed as its UTF-8 byte sequence (Go `len` and slicing are
byte based). -/
abbrev GoStr := List Nat

/-- UTF-8 encoding of a single code point. -/
def utf8EncodeCharBytes (c : Char) : List Nat :=
  let n := c.toNat
  if n < 0x80 then [n]
  else if n < 0x800 then [0xC0 + n / 0x40, 0x80 + n % 0x40]
  else if n < 0x10000 then
    [0xE0 + n / 0x1000, 0x80 + n / 0x40 % 0x40, 0x80 + n % 0x40]
  else
    [0xF0 + n / 0x40000, 0x80 + n / 0x1000 % 0x40, 0x80 + n / 0x40 % 0x40,
      0x80 + n % 0x40]

/-- UTF-8 bytes of a Lean string literal, used to embed Go string literals. -/
def utf8Bytes (s : String) : GoStr :=
  (s.data.map utf8EncodeCharBytes).flatten

namespace database

/-- Row of the `participant` table (struct `database.Participant`). -/
structure Participant where
  id : String
  groupID : Int
  userID : Int
  username : GoStr
  fullName : GoStr
  createdAt : Int
deriving DecidableEq, Repr

/-- Row of the `pair` table (struct `database.Pair`). -/
structure Pair where
  id : String
  groupID : Int
  weekStart : String
  user1ID : Int
  user2ID : Int
  createdAt : Int
deriving DecidableEq, Repr

/-- Row of the `poll_mapping` table as the data-access layer declares it
(struct `database.PollMapping`). -/
structure PollMapping where
  pollID : String
  groupID : Int
  messageID : Int
deriving DecidableEq, Repr

/-- Database state: the three tables, each as its rows in insertion order. -/
structure DB where
  participants : List Participant
  pairs : List Pair
  pollMappings : List PollMapping
deriving DecidableEq, Repr

/-- `CreateOrUpdateParticipant`: INSERT .. ON CONFLICT (group_id, user_id)
DO UPDATE SET username, full_name. -/
def CreateOrUpdateParticipant (db : DB) (p : Participant) : DB :=
  if db.participants.any (fun q => q.groupID == p.groupID && q.userID == p.userID) then
    { db with participants := db.participants.map (fun q =>
        if q.groupID == p.groupID && q.userID == p.userID then
          { q with username := p.username, fullName := p.fullName }
        else q) }
  else
    { db with participants := db.participants ++ [p] }

/-- `GetAllParticipants`: SELECT .. FROM participant WHERE group_id = ?. -/
def GetAllParticipants (db : DB) (groupID : Int) : List Participant :=
  db.participants.filter (fun p => p.groupID == groupID)

/-- `DeleteParticipant`: DELETE FROM participant WHERE group_id = ? AND user_id = ?. -/
def DeleteParticipant (db : DB) (groupID userID : Int) : DB :=
  { db with participants :=
      db.participants.filter (fun p => !(p.groupID == groupID && p.userID == userID)) }

/-- `ClearAllParticipants`: DELETE FROM participant WHERE group_id = ?. -/
def ClearAllParticipants (db : DB) (groupID : Int) : DB :=
  { db with participants := db.participants.filter (fun p => !(p.groupID == groupID)) }

/-- `CreatePairs` (database layer): row-by-row INSERT INTO pair. -/
def CreatePairs (db : DB) (rows : List Pair) : DB :=
  { db with pairs := db.pairs ++ rows }

/-- Does a historical pair row block the candidate (u1, u2) for this group?
Mirrors the NOT EXISTS subquery of `GetAvailablePairs`: the row matches in
either user order. -/
def histBlocks (groupID u1 u2 : Int) (pr : Pair) : Bool :=
  pr.groupID == groupID &&
    ((pr.user1ID == u1 && pr.user2ID == u2) || (pr.user1ID == u2 && pr.user2ID == u1))

/-- `GetAvailablePairs`: cross join of the group's participants with
`p1.user_id < p2.user_id`, minus candidates present in the pair history in
either order.  The SQL's `ORDER BY RANDOM()` is modelled by quantifying over
permutations of this canonical list in the theorems. -/
def GetAvailablePairs (db : DB) (groupID : Int) : List (Participant × Participant) :=
  let ps := db.participants.filter (fun p => p.groupID == groupID)
  (ps.map (fun p1 =>
    ps.filterMap (fun p2 =>
      if p1.userID < p2.userID &&
          !(db.pairs.any (histBlocks groupID p1.userID p2.userID)) then
        some (p1, p2)
      else none))).flatten

/-- `CreatePollMapping`: INSERT INTO poll_mapping (row-level effect). -/
def CreatePollMapping (db : DB) (pm : PollMapping) : DB :=
  { db with pollMappings := db.pollMappings ++ [pm] }

/-- `GetGroupIDByPollID`: SELECT group_id FROM poll_mapping WHERE poll_id = ?
via QueryRow; `none` models the "poll not found" error. -/
def GetGroupIDByPollID (db : DB) (pollID : String) : Option Int :=
  (db.pollMappings.find? (fun pm => pm.pollID == pollID)).map (·.groupID)

/-- `GetPollMappingByGroupID`: WHERE group_id = ? ORDER BY rowid DESC LIMIT 1,
i.e. the most recently inserted mapping for the group. -/
def GetPollMappingByGroupID (db : DB) (groupID : Int) : Option PollMapping :=
  db.pollMappings.reverse.find? (fun pm => pm.groupID == groupID)

/-- `DeletePollMapping`: DELETE FROM poll_mapping WHERE group_id = ?. -/
def DeletePollMapping (db : DB) (groupID : Int) : DB :=
  { db with pollMappings := db.pollMappings.filter (fun pm => !(pm.groupID == groupID)) }

end database

/-! Schema created by the startup migration `00001_init_schema.sql`, as the
column-name lists of each CREATE TABLE statement. -/

/-- Columns of `pair` in the migration. -/
def pairTableColumns : List String :=
  ["id", "group_id", "week_start", "user1_id", "user2_id", "created_at"]

/-- Columns of `participant` in the migration. -/
def participantTableColumns : List String :=
  ["id", "group_id", "user_id", "username", "full_name", "created_at"]

/-- Columns of `poll_mapping` in the migration. -/
def pollMappingTableColumns : List String :=
  ["poll_id", "group_id"]

/-- Columns named by the INSERT statement in `database.CreatePollMapping`. -/
def createPollMappingInsertColumns : List String :=
  ["poll_id", "group_id", "message_id"]

/-- An INSERT succeeds against a table only if every column it names exists
in the table's schema. -/
def insertColumnsOk (tableColumns insertColumns : List String) : Bool :=
  insertColumns.all (fun c => tableColumns.contains c)

namespace bot

open database

/-- A Telegram user as `HandlePollAnswer` reads it. -/
structure User where
  id : Int
  firstName : GoStr
  lastName : GoStr
  username : GoStr
deriving DecidableEq, Repr

/-- A poll-answer update (`echotron.PollAnswer`). -/
structure PollAnswer where
  user : Option User
  pollID : String
  optionIDs : List Nat
deriving DecidableEq, Repr

/-- An incoming chat message as the command handlers read it. -/
structure Message where
  fromID : Option Int
  chatID : Int
  text : GoStr
deriving DecidableEq, Repr

/-- `getDisplayName`: `"@" + username` when the username is nonempty,
otherwise the full name. -/
def getDisplayName (p : Participant) : GoStr :=
  if p.username ≠ [] then utf8Bytes "@" ++ p.username else p.fullName

/-- `isAdmin`: membership in the admin chat-id map. -/
def isAdmin (admins : List Int) (userID : Int) : Bool :=
  admins.contains userID

/-- The condition `len(OptionIDs) == 0 || OptionIDs[0] != 0` from
`HandlePollAnswer` (true means remove the participant). -/
def answerRemoves (optionIDs : List Nat) : Bool :=
  match optionIDs with
  | [] => true
  | o :: _ => o != 0

/-- Full name built in `HandlePollAnswer`: first name, plus a space and the
last name when the last name is nonempty. -/
def answerFullName (u : User) : GoStr :=
  u.firstName ++ (if u.lastName ≠ [] then utf8Bytes " " ++ u.lastName else [])

/-- `HandlePollAnswer`.  `newID` stands for the fresh `uuid.New()` and
`now` for `time.Now()` used when inserting a participant. -/
def HandlePollAnswer (db : DB) (ans : PollAnswer) (newID : String) (now : Int) : DB :=
  match ans.user with
  | none => db
  | some u =>
    match GetGroupIDByPollID db ans.pollID with
    | none => db
    | some groupID =>
      if answerRemoves ans.optionIDs then
        DeleteParticipant db groupID u.id
      else
        CreateOrUpdateParticipant db
          { id := newID, groupID := groupID, userID := u.id,
            username := u.username, fullName := answerFullName u, createdAt := now }

/-- Which workflow a group-chat command triggers. -/
inductive GroupAction where
  | createPairsAction (groupID : Int)
  | sendQuizAction (groupID : Int)
deriving DecidableEq, Repr

/-- `HandleGroupCommand`: admin gate, then an exact `switch` on the text. -/
def HandleGroupCommand (admins : List Int) (message : Message) : Option GroupAction :=
  match message.fromID with
  | none => none
  | some uid =>
    if !isAdmin admins uid then none
    else if message.text = utf8Bytes "/create_pairs" then
      some (.createPairsAction message.chatID)
    else if message.text = utf8Bytes "/send_quiz" then
      some (.sendQuizAction message.chatID)
    else none

/-- Reply text of `/start`. -/
def startText : GoStr :=
  utf8Bytes ("👋 Привет! Это Random Coffee Bot.\n\n" ++
    "Бот автоматически создает пары для случайных встреч.\n\n" ++
    "📅 Расписание:\n" ++
    "• Пятница 17:00 - рассылка опроса\n" ++
    "• Воскресенье 19:00 - создание пар\n\n" ++
    "Команды в личке (только для админов):\n" ++
    "/groups - список групп\n\n" ++
    "Команды в группе (только для админов):\n" ++
    "/send_quiz - отправить опрос вручную\n" ++
    "/create_pairs - создать пары вручную")

/-- Reply text sent to non-admins for `/groups`. -/
def accessDeniedText : GoStr := utf8Bytes "❌ Доступ запрещен"

/-- Reply text when no groups are configured. -/
def noGroupsText : GoStr := utf8Bytes "Группы не настроены"

/-- Fallback reply for unknown private commands. -/
def unknownCommandText : GoStr :=
  utf8Bytes "Неизвестная команда. Используй /start для справки."

/-- Decimal rendering of an int64, as Go's `%d`. -/
def intDecimal (n : Int) : GoStr := utf8Bytes (toString n)

/-- The `/groups` listing: header plus one bulleted line per group id. -/
def groupsListText (groupIDs : List Int) : GoStr :=
  utf8Bytes "Настроенные группы:\n" ++
    (groupIDs.map (fun gid => utf8Bytes "• " ++ intDecimal gid ++ utf8Bytes "\n")).flatten

/-- `HandlePrivateCommand`, returning the list of (text, chat id) messages
passed to `sendMessage`. -/
def HandlePrivateCommand (admins groupIDs : List Int) (message : Message) :
    List (GoStr × Int) :=
  match message.fromID with
  | none => []
  | some uid =>
    if message.text = utf8Bytes "/start" then
      [(startText, message.chatID)]
    else if message.text = utf8Bytes "/groups" then
      if !isAdmin admins uid then [(accessDeniedText, message.chatID)]
      else if groupIDs = [] then [(noGroupsText, message.chatID)]
      else [(groupsListText groupIDs, message.chatID)]
    else
      [(unknownCommandText, message.chatID)]

/-- Outcomes of the fallible external steps of one `SendQuiz` run. -/
structure QuizOutcomes where
  deleteOldMappingOk : Bool
  sendPollRes : Option (Int × String)
  createMappingOk : Bool
  pinOk : Bool
deriving DecidableEq, Repr

/-- `SendQuiz`: delete any stale mapping for the group (failure only logged),
send the poll (failure aborts), store the new mapping (failure aborts), then
pin (failure only logged).  `sendPollRes` carries `(message id, poll id)` of
a successful `SendPoll`. -/
def SendQuiz (db : DB) (groupID : Int) (o : QuizOutcomes) : DB :=
  let db1 := if o.deleteOldMappingOk then DeletePollMapping db groupID else db
  match o.sendPollRes with
  | none => db1
  | some (messageID, pollID) =>
    if o.createMappingOk then
      CreatePollMapping db1 { pollID := pollID, groupID := groupID, messageID := messageID }
    else db1

/-- `filterUniquePairs` recursion: scan the candidate list, keeping a pair
only when neither user id is marked used, then marking both. -/
def filterUniquePairsAux (l : List (Participant × Participant)) (used : List Int) :
    List (Participant × Participant) × List Int :=
  match l with
  | [] => ([], used)
  | pr :: rest =>
    if pr.1.userID ∈ used ∨ pr.2.userID ∈ used then
      filterUniquePairsAux rest used
    else
      let r := filterUniquePairsAux rest (pr.1.userID :: pr.2.userID :: used)
      (pr :: r.1, r.2)

/-- `filterUniquePairs`: greedy one-pass dedup starting from an empty
used-users map. -/
def filterUniquePairs (availablePairs : List (Participant × Participant)) :
    List (Participant × Participant) × List Int :=
  filterUniquePairsAux availablePairs []

/-- Pair rows built by `savePairsToDatabase`; `ids` supplies the fresh
`uuid.New()` values, `now` the `time.Now()` timestamps. -/
def savePairRows (finalPairs : List (Participant × Participant))
    (groupID : Int) (weekStart : String) (ids : List String) (now : Int) : List Pair :=
  match finalPairs, ids with
  | [], _ => []
  | fp :: rest, i :: is' =>
    { id := i, groupID := groupID, weekStart := weekStart,
      user1ID := fp.1.userID, user2ID := fp.2.userID, createdAt := now } ::
      savePairRows rest groupID weekStart is' now
  | fp :: rest, [] =>
    { id := "", groupID := groupID, weekStart := weekStart,
      user1ID := fp.1.userID, user2ID := fp.2.userID, createdAt := now } ::
      savePairRows rest groupID weekStart [] now

/-- `buildPairsMessage`: header, one "▫️ a ✖️ b" line per pair, footer. -/
def buildPairsMessage (finalPairs : List (Participant × Participant)) : GoStr :=
  utf8Bytes "🎉 Пары Random Coffee на эту неделю ☕️\n\n" ++
    (finalPairs.map (fun pr =>
      utf8Bytes "▫️ " ++ getDisplayName pr.1 ++ utf8Bytes " ✖️ " ++
        getDisplayName pr.2 ++ utf8Bytes "\n\n")).flatten ++
    utf8Bytes "💬 Напиши прямо сейчас собеседнику в личку и договорись о месте и времени!"

/-- `strings.Join` on byte strings. -/
def joinSep (strs : List GoStr) (sep : GoStr) : GoStr :=
  match strs with
  | [] => []
  | s :: rest => s ++ (rest.map (fun t => sep ++ t)).flatten

/-- `appendUnpairedMessage`: when `GetAllParticipants` succeeds and some
group participants are not in the used map, append the "unpaired" tail. -/
def appendUnpairedMessage (db : DB) (getAllOk : Bool) (message : GoStr)
    (groupID : Int) (usedUsers : List Int) : GoStr :=
  if !getAllOk then message
  else
    let allParticipants := GetAllParticipants db groupID
    if allParticipants = [] then message
    else
      let unpaired := allParticipants.filter (fun p => !(usedUsers.contains p.userID))
      if unpaired = [] then message
      else
        message ++ utf8Bytes "\n\n😔 К сожалению, без пары: " ++
          joinSep (unpaired.map getDisplayName) (utf8Bytes ", ")

/-- The truncation suffix appended in `CreatePairs`. -/
def truncationSuffix : GoStr := utf8Bytes "\n\n...(обрезано)"

/-- The length check in `CreatePairs`: messages longer than 4000 bytes are
cut at byte offset 4000 and the fixed suffix is appended. -/
def truncateMessage (message : GoStr) : GoStr :=
  if 4000 < message.length then message.take 4000 ++ truncationSuffix
  else message

end bot

namespace bot

open database

/-- Outcomes of the fallible steps of one `CreatePairs` run.  `availRes`
carries the (already shuffled) result of `GetAvailablePairs`, or `none` for
a query error; the remaining flags give each later step's success. -/
structure CreatePairsOutcomes where
  availRes : Option (List (Participant × Participant))
  saveOk : Bool
  getAllOk : Bool
  getMappingOk : Bool
  unpinOk : Bool
  deleteMappingOk : Bool
  clearOk : Bool
  sendDelivered : Bool
deriving DecidableEq, Repr

/-- Observable result of a `CreatePairs` run: the database afterwards, the
messages handed to `sendMessage` (text, chat id, delivered flag), and which
steps were attempted. -/
structure CreatePairsResult where
  db : DB
  sent : List (GoStr × Int × Bool)
  saveAttempted : Bool
  unpinAttempted : Bool
  deleteMappingAttempted : Bool
  clearAttempted : Bool
deriving DecidableEq, Repr

/-- Error reply when `GetAvailablePairs` fails. -/
def errGetPairsText : GoStr := utf8Bytes "❌ Ошибка при получении доступных пар"

/-- Reply when there are no candidate pairs at all. -/
def noCandidatesText : GoStr := utf8Bytes "❌ Недостаточно участников или нет уникальных пар"

/-- Reply when the greedy filter keeps no pair. -/
def noUniquePairsText : GoStr := utf8Bytes "❌ Не удалось создать уникальные пары"

/-- Error reply when saving the pairs fails. -/
def errSaveText : GoStr := utf8Bytes "❌ Ошибка при сохранении пар"

/-- `CreatePairs` (cmd/main.go): fetch candidates, greedy-filter, persist
(early return on failure), build/truncate/send the summary, unpin and delete
the poll mapping when a mapping is found, then clear the participant pool.
`ids`/`weekStart`/`now` stand for the generated uuids, `getWeekStart` value
and `time.Now()`. -/
def CreatePairs (db : DB) (groupID : Int) (o : CreatePairsOutcomes)
    (ids : List String) (weekStart : String) (now : Int) : CreatePairsResult :=
  match o.availRes with
  | none =>
    { db := db, sent := [(errGetPairsText, groupID, o.sendDelivered)],
      saveAttempted := false, unpinAttempted := false,
      deleteMappingAttempted := false, clearAttempted := false }
  | some availablePairs =>
    if availablePairs = [] then
      { db := db, sent := [(noCandidatesText, groupID, o.sendDelivered)],
        saveAttempted := false, unpinAttempted := false,
        deleteMappingAttempted := false, clearAttempted := false }
    else
      let fu := filterUniquePairs availablePairs
      let finalPairs := fu.1
      let usedUsers := fu.2
      if finalPairs = [] then
        { db := db, sent := [(noUniquePairsText, groupID, o.sendDelivered)],
          saveAttempted := false, unpinAttempted := false,
          deleteMappingAttempted := false, clearAttempted := false }
      else if !o.saveOk then
        { db := db, sent := [(errSaveText, groupID, o.sendDelivered)],
          saveAttempted := true, unpinAttempted := false,
          deleteMappingAttempted := false, clearAttempted := false }
      else
        let db1 := database.CreatePairs db (savePairRows finalPairs groupID weekStart ids now)
        let message := buildPairsMessage finalPairs
        let message := appendUnpairedMessage db1 o.getAllOk message groupID usedUsers
        let message := truncateMessage message
        let sent := [(message, groupID, o.sendDelivered)]
        let afterUnpin :=
          if !o.getMappingOk then (db1, false, false)
          else
            match GetPollMappingByGroupID db1 groupID with
            | none => (db1, false, false)
            | some _ =>
              let db2 := if o.deleteMappingOk then DeletePollMapping db1 groupID else db1
              (db2, true, true)
        let db3 := afterUnpin.1
        let db4 := if o.clearOk then ClearAllParticipants db3 groupID else db3
        { db := db4, sent := sent,
          saveAttempted := true, unpinAttempted := afterUnpin.2.1,
          deleteMappingAttempted := afterUnpin.2.2, clearAttempted := true }

end bot

/-! Scheduler time model (`nextOccurrence` in cmd/main.go).  A local
wall-clock instant in the scheduler's fixed-offset timezone is a number of
minutes; day 0 of the epoch is a Thursday (Go weekday 4), matching Go's
`time.Weekday` numbering (Sunday = 0). -/

/-- Day index of a wall-clock minute count. -/
def dayOf (t : Nat) : Nat := t / 1440

/-- Go `Weekday()` of a wall-clock minute count (Sunday = 0, epoch day is
Thursday = 4). -/
def weekdayOf (t : Nat) : Nat := (dayOf t + 4) % 7

/-- `time.Date(now.Year(), now.Month(), now.Day(), hour, minute, 0, 0, loc)`:
the same calendar day as `now`, at the given wall-clock time. -/
def timeDate (now hour minute : Nat) : Nat := dayOf now * 1440 + hour * 60 + minute

/-- `nextOccurrence`: today's target if the weekday matches and it is still
ahead, otherwise jump forward by `weekday - now.Weekday()` days, plus 7 when
that difference is not positive. -/
def nextOccurrence (now weekday hour minute : Nat) : Nat :=
  if weekdayOf now = weekday ∧ now < timeDate now hour minute then
    timeDate now hour minute
  else
    timeDate now hour minute +
      (1440 * (if (weekday : Int) - (weekdayOf now : Int) ≤ 0 then
          (weekday : Int) - (weekdayOf now : Int) + 7
        else (weekday : Int) - (weekdayOf now : Int))).toNat

namespace bot

open database

/-- User ids contributed by a list of selected pairs, in order. -/
def pairUids (l : List (Participant × Participant)) : List Int :=
  (l.map (fun pr => [pr.1.userID, pr.2.userID])).flatten

/-- How many selected pairs contain the participant's user id. -/
def pairedCount (fp : List (Participant × Participant)) (p : Participant) : Nat :=
  fp.countP (fun pr => pr.1.userID == p.userID || pr.2.userID == p.userID)

/-- A UTF-8 continuation byte (second or later byte of a multi-byte
character). -/
def isUtf8ContinuationByte (b : Nat) : Bool := 128 ≤ b && b < 192

/-- Example participant (group 1, user 1). -/
def pAlice : Participant :=
  { id := "a", groupID := 1, userID := 1, username := utf8Bytes "alice",
    fullName := utf8Bytes "Alice", createdAt := 0 }

/-- Example participant (group 1, user 2). -/
def pBob : Participant :=
  { id := "b", groupID := 1, userID := 2, username := utf8Bytes "bob",
    fullName := utf8Bytes "Bob", createdAt := 0 }

/-- Example database: two participants of group 1, no history, no mappings. -/
def exDB : DB := { participants := [pAlice, pBob], pairs := [], pollMappings := [] }

/-- Example `CreatePairs` outcomes in which persisting the pairs fails and
every other step would succeed. -/
def exOutcomesSaveFail : CreatePairsOutcomes :=
  { availRes := some (GetAvailablePairs exDB 1), saveOk := false, getAllOk := true,
    getMappingOk := true, unpinOk := true, deleteMappingOk := true, clearOk := true,
    sendDelivered := true }

/-- Example `CreatePairs` outcomes in which persistence succeeds but message
delivery, unpin and mapping deletion all fail. -/
def exOutcomesLateFailures : CreatePairsOutcomes :=
  { availRes := some (GetAvailablePairs exDB 1), saveOk := true, getAllOk := false,
    getMappingOk := true, unpinOk := false, deleteMappingOk := false, clearOk := true,
    sendDelivered := false }

/-- Example participant with a 3929-byte username, making the summary
message overrun 4000 bytes just before the "✖️" separator. -/
def pLong : Participant :=
  { id := "l", groupID := 1, userID := 1, username := List.replicate 3929 97,
    fullName := [], createdAt := 0 }

/-- Example second participant for the long message. -/
def pShort : Participant :=
  { id := "s", groupID := 1, userID := 2, username := [98],
    fullName := [], createdAt := 0 }

/-- Empty database (no participants), so `appendUnpairedMessage` leaves the
message unchanged. -/
def dbNoParts : DB := { participants := [], pairs := [], pollMappings := [] }

/-- The summary message `CreatePairs` would build for the single pair
(`pLong`, `pShort`). -/
def longPairMessage : GoStr :=
  appendUnpairedMessage dbNoParts true (buildPairsMessage [(pLong, pShort)]) 1 []

end bot

namespace bot

open database

lemma fuAux_used_mono (l : List (Participant × Participant)) (used : List Int) :
    ∀ x ∈ used, x ∈ (filterUniquePairsAux l used).2 := by
  induction l generalizing used with
  | nil => intro x hx; simpa [filterUniquePairsAux] using hx
  | cons pr rest ih =>
    intro x hx
    by_cases h : pr.1.userID ∈ used ∨ pr.2.userID ∈ used
    · simpa [filterUniquePairsAux, h] using ih used x hx
    · simp only [filterUniquePairsAux, if_neg h]
      exact ih _ x (by simp [hx])

lemma fuAux_sel_subset (l : List (Participant × Participant)) (used : List Int) :
    ∀ pr ∈ (filterUniquePairsAux l used).1, pr ∈ l := by
  induction l generalizing used with
  | nil => intro pr hpr; simp [filterUniquePairsAux] at hpr
  | cons qr rest ih =>
    intro pr hpr
    by_cases h : qr.1.userID ∈ used ∨ qr.2.userID ∈ used
    · simp only [filterUniquePairsAux, if_pos h] at hpr
      exact List.mem_cons_of_mem _ (ih used pr hpr)
    · simp only [filterUniquePairsAux, if_neg h, List.mem_cons] at hpr
      rcases hpr with h1 | h1
      · simp [h1]
      · exact List.mem_cons_of_mem _ (ih _ pr h1)

lemma fuAux_mem_used (l : List (Participant × Participant)) (used : List Int) (x : Int) :
    x ∈ (filterUniquePairsAux l used).2 ↔
      x ∈ used ∨ ∃ pr ∈ (filterUniquePairsAux l used).1,
        x = pr.1.userID ∨ x = pr.2.userID := by
  induction l generalizing used with
  | nil => simp [filterUniquePairsAux]
  | cons qr rest ih =>
    by_cases h : qr.1.userID ∈ used ∨ qr.2.userID ∈ used
    · simp only [filterUniquePairsAux, if_pos h]
      exact ih used
    · simp only [filterUniquePairsAux, if_neg h]
      rw [ih]
      simp only [List.mem_cons, List.mem_cons]
      constructor
      · rintro (hx | ⟨pr, hpr, hx⟩)
        · rcases hx with hx | hx | hx
          · exact Or.inr ⟨qr, Or.inl rfl, Or.inl hx⟩
          · exact Or.inr ⟨qr, Or.inl rfl, Or.inr hx⟩
          · exact Or.inl hx
        · exact Or.inr ⟨pr, Or.inr hpr, hx⟩
      · rintro (hx | ⟨pr, hpr | hpr, hx⟩)
        · exact Or.inl (by simp [hx])
        · subst hpr
          exact Or.inl (by rcases hx with hx | hx <;> simp [hx])
        · exact Or.inr ⟨pr, hpr, hx⟩

lemma fuAux_covers (l : List (Participant × Participant)) (used : List Int)
    (pr : Participant × Participant) (h : pr ∈ l) :
    pr.1.userID ∈ (filterUniquePairsAux l used).2 ∨
      pr.2.userID ∈ (filterUniquePairsAux l used).2 := by
  induction l generalizing used with
  | nil => cases h
  | cons qr rest ih =>
    rcases List.mem_cons.mp h with h1 | h1
    · subst h1
      by_cases hc : pr.1.userID ∈ used ∨ pr.2.userID ∈ used
      · simp only [filterUniquePairsAux, if_pos hc]
        rcases hc with hc | hc
        · exact Or.inl (fuAux_used_mono rest used _ hc)
        · exact Or.inr (fuAux_used_mono rest used _ hc)
      · simp only [filterUniquePairsAux, if_neg hc]
        exact Or.inl (fuAux_used_mono rest _ _ (by simp))
    · by_cases hc : qr.1.userID ∈ used ∨ qr.2.userID ∈ used
      · simp only [filterUniquePairsAux, if_pos hc]
        exact ih used h1
      · simp only [filterUniquePairsAux, if_neg hc]
        exact ih _ h1

lemma fuAux_used_perm (l : List (Participant × Participant)) (used : List Int) :
    (filterUniquePairsAux l used).2.Perm
      (pairUids (filterUniquePairsAux l used).1 ++ used) := by
  induction l generalizing used with
  | nil => simp [filterUniquePairsAux, pairUids]
  | cons qr rest ih =>
    by_cases h : qr.1.userID ∈ used ∨ qr.2.userID ∈ used
    · simp only [filterUniquePairsAux, if_pos h]
      exact ih used
    · simp only [filterUniquePairsAux, if_neg h]
      refine (ih _).trans ?_
      simp only [pairUids, List.map_cons, List.flatten_cons, List.cons_append,
        List.append_assoc]
      exact List.Perm.trans List.perm_middle (List.Perm.cons _ List.perm_middle)

lemma fuAux_used_nodup (l : List (Participant × Participant)) (used : List Int)
    (hu : used.Nodup) (hl : ∀ pr ∈ l, pr.1.userID ≠ pr.2.userID) :
    (filterUniquePairsAux l used).2.Nodup := by
  induction l generalizing used with
  | nil => simpa [filterUniquePairsAux] using hu
  | cons qr rest ih =>
    by_cases h : qr.1.userID ∈ used ∨ qr.2.userID ∈ used
    · simp only [filterUniquePairsAux, if_pos h]
      exact ih used hu (fun pr hpr => hl pr (List.mem_cons_of_mem _ hpr))
    · simp only [filterUniquePairsAux, if_neg h]
      push_neg at h
      refine ih _ ?_ (fun pr hpr => hl pr (List.mem_cons_of_mem _ hpr))
      simp only [List.nodup_cons]
      refine ⟨?_, h.2, hu⟩
      simp only [List.mem_cons]
      push_neg
      exact ⟨hl qr (by simp), h.1⟩

lemma pairUids_length (fp : List (Participant × Participant)) :
    (pairUids fp).length = 2 * fp.length := by
  induction fp with
  | nil => simp [pairUids]
  | cons pr rest ih =>
    simp only [pairUids, List.map_cons, List.flatten_cons] at ih ⊢
    simp [ih]
    omega

lemma countP_pairUids (fp : List (Participant × Participant)) (x : Int)
    (h : ∀ pr ∈ fp, pr.1.userID ≠ pr.2.userID) :
    (pairUids fp).countP (fun y => y == x) =
      fp.countP (fun pr => pr.1.userID == x || pr.2.userID == x) := by
  induction fp with
  | nil => simp [pairUids]
  | cons pr rest ih =>
    have hne : pr.1.userID ≠ pr.2.userID := h pr (by simp)
    have ih' := ih (fun q hq => h q (List.mem_cons_of_mem _ hq))
    simp only [pairUids, List.map_cons, List.flatten_cons, List.cons_append,
      List.countP_cons, List.nil_append]
    simp only [pairUids] at ih'
    rw [ih']
    by_cases h1 : pr.1.userID = x <;> by_cases h2 : pr.2.userID = x
    · exact absurd (h1.trans h2.symm) hne
    · simp [h1, h2]
    · simp [h1, h2]
    · simp [h1, h2]

end bot

namespace bot

open database
lemma length_filter_mem_of_nodup (l u : List Int) (hl : l.Nodup) (hu : u.Nodup)
    (hsub : ∀ x ∈ u, x ∈ l) :
    (l.filter (fun x => decide (x ∈ u))).length = u.length := by
  induction l generalizing u with
  | nil =>
    cases u with
    | nil => simp
    | cons a u' => exact absurd (hsub a (by simp)) (by simp)
  | cons a l' ih =>
    have hal' : a ∉ l' := (List.nodup_cons.mp hl).1
    have hl' : l'.Nodup := (List.nodup_cons.mp hl).2
    by_cases ha : a ∈ u
    · have hcongr : l'.filter (fun x => decide (x ∈ u)) =
          l'.filter (fun x => decide (x ∈ u.erase a)) := by
        refine List.filter_congr ?_
        intro x hx
        have hxa : x ≠ a := fun hxa => hal' (hxa ▸ hx)
        simp [List.mem_erase_of_ne hxa]
      have hsub' : ∀ x ∈ u.erase a, x ∈ l' := by
        intro x hx
        have hxu : x ∈ u := List.mem_of_mem_erase hx
        have hxa : x ≠ a := ((List.Nodup.mem_erase_iff hu).mp hx).1
        rcases List.mem_cons.mp (hsub x hxu) with h | h
        · exact absurd h hxa
        · exact h
      have hrec := ih (u.erase a) hl' (hu.erase a) hsub'
      have hlen : (u.erase a).length = u.length - 1 := List.length_erase_of_mem ha
      have hupos : 0 < u.length := List.length_pos_of_mem ha
      simp only [List.filter_cons, ha, hcongr, hrec]
      simp only [decide_eq_true_eq, ha, if_true, List.length_cons, hrec, hlen]
      omega
    · have hsub' : ∀ x ∈ u, x ∈ l' := by
        intro x hx
        rcases List.mem_cons.mp (hsub x hx) with h | h
        · exact absurd (h ▸ hx) ha
        · exact h
      simp only [List.filter_cons, decide_eq_true_eq, ha, if_false]
      exact ih u hl' hu hsub'

lemma length_filter_userID_map (parts : List Participant) (u : List Int) :
    (parts.filter (fun p => decide (p.userID ∈ u))).length =
      ((parts.map (fun p => p.userID)).filter (fun x => decide (x ∈ u))).length := by
  induction parts with
  | nil => simp
  | cons p rest ih =>
    by_cases h : p.userID ∈ u <;> simp [List.filter_cons, h, ih]

lemma length_filter_userID_mem (parts : List Participant) (u : List Int)
    (hp : (parts.map (fun p => p.userID)).Nodup) (hu : u.Nodup)
    (hsub : ∀ x ∈ u, x ∈ parts.map (fun p => p.userID)) :
    (parts.filter (fun p => decide (p.userID ∈ u))).length = u.length := by
  rw [length_filter_userID_map]
  exact length_filter_mem_of_nodup _ u hp hu hsub

lemma mem_getAvailablePairs (db : DB) (groupID : Int) (pr : Participant × Participant) :
    pr ∈ GetAvailablePairs db groupID ↔
      pr.1 ∈ db.participants ∧ pr.1.groupID = groupID ∧
      pr.2 ∈ db.participants ∧ pr.2.groupID = groupID ∧
      pr.1.userID < pr.2.userID ∧
      ∀ h ∈ db.pairs, histBlocks groupID pr.1.userID pr.2.userID h = false := by
  obtain ⟨p1, p2⟩ := pr
  simp only [GetAvailablePairs, List.mem_flatten, List.mem_map, List.mem_filterMap,
    List.mem_filter, Option.ite_none_right_eq_some, Option.some.injEq, Prod.mk.injEq,
    Bool.and_eq_true, Bool.not_eq_true', List.any_eq_false, decide_eq_true_eq, beq_iff_eq,
    exists_exists_and_eq_and]
  constructor
  · rintro ⟨a, ⟨ha1, ha2⟩, b, ⟨hb1, hb2⟩, ⟨hlt, hh⟩, rfl, rfl⟩
    exact ⟨ha1, ha2, hb1, hb2, hlt, fun h hmem => Bool.not_eq_true _ ▸ hh h hmem⟩
  · rintro ⟨h1, h2, h3, h4, h5, h6⟩
    exact ⟨p1, ⟨h1, h2⟩, p2, ⟨h3, h4⟩, ⟨h5, fun x hx => by simp [h6 x hx]⟩, rfl, rfl⟩

end bot

open database bot in
/-- C1: every candidate pair returned by the pairing query
(`GetAvailablePairs`) consists of two distinct currently-stored participants
of the group and does not equal, in either user order, any pair recorded in
the pair history for that group; consequently no pair selected by the greedy
filter from any (shuffled) candidate list repeats a historical pair. -/
theorem claim1_pairing_query_no_repeats
    (db : DB) (groupID : Int) (cand : List (Participant × Participant))
    (hcand : ∀ pr ∈ cand, pr ∈ GetAvailablePairs db groupID)
    (pr : Participant × Participant)
    (hpr : pr ∈ GetAvailablePairs db groupID ∨ pr ∈ (filterUniquePairs cand).1) :
    pr.1 ∈ db.participants ∧ pr.1.groupID = groupID ∧
    pr.2 ∈ db.participants ∧ pr.2.groupID = groupID ∧
    pr.1.userID ≠ pr.2.userID ∧
    ∀ h ∈ db.pairs, h.groupID = groupID →
      ¬((h.user1ID = pr.1.userID ∧ h.user2ID = pr.2.userID) ∨
        (h.user1ID = pr.2.userID ∧ h.user2ID = pr.1.userID)) := by
  have hmem : pr ∈ GetAvailablePairs db groupID := by
    rcases hpr with h | h
    · exact h
    · exact hcand pr (fuAux_sel_subset cand [] pr h)
  rw [mem_getAvailablePairs] at hmem
  obtain ⟨h1, h2, h3, h4, h5, h6⟩ := hmem
  refine ⟨h1, h2, h3, h4, by omega, ?_⟩
  intro h hh hgrp
  rintro (⟨e1, e2⟩ | ⟨e1, e2⟩) <;>
  · have ht : histBlocks groupID pr.1.userID pr.2.userID h = true := by
      simp [histBlocks, hgrp, e1, e2]
    rw [h6 h hh] at ht
    cases ht

open database bot in
/-- C1 witness: in the two-participant example database with empty history,
the candidate (Alice, Bob) satisfies all the claimed properties. -/
theorem claim1_pairing_query_no_repeats_witness :
    pAlice ∈ exDB.participants ∧ pAlice.groupID = 1 ∧
    pBob ∈ exDB.participants ∧ pBob.groupID = 1 ∧
    pAlice.userID ≠ pBob.userID ∧
    ∀ h ∈ exDB.pairs, h.groupID = 1 →
      ¬((h.user1ID = pAlice.userID ∧ h.user2ID = pBob.userID) ∨
        (h.user1ID = pBob.userID ∧ h.user2ID = pAlice.userID)) :=
  claim1_pairing_query_no_repeats exDB 1 (GetAvailablePairs exDB 1)
    (fun _ h => h) (pAlice, pBob) (Or.inl (by decide))

/-- C6: the migrated schema's `poll_mapping` table has no `message_id`
column, so the INSERT in `CreatePollMapping`, which names `message_id`,
cannot succeed against the schema created by the startup migration. -/
theorem claim6_poll_mapping_schema_missing_message_id :
    insertColumnsOk pollMappingTableColumns createPollMappingInsertColumns = false ∧
    ¬ "message_id" ∈ pollMappingTableColumns := by
  constructor
  · rfl
  · decide

/-- C8: `nextOccurrence` returns the earliest wall-clock instant strictly
after `now` that falls on the requested weekday at the requested hour and
minute. -/
theorem claim8_next_occurrence_correct
    (now weekday hour minute : Nat)
    (hw : weekday < 7) (hh : hour < 24) (hm : minute < 60) :
    now < nextOccurrence now weekday hour minute ∧
    weekdayOf (nextOccurrence now weekday hour minute) = weekday ∧
    nextOccurrence now weekday hour minute % 1440 = hour * 60 + minute ∧
    (∀ t, now < t → weekdayOf t = weekday → t % 1440 = hour * 60 + minute →
      nextOccurrence now weekday hour minute ≤ t) := by
  unfold nextOccurrence timeDate weekdayOf dayOf
  by_cases hc : (now / 1440 + 4) % 7 = weekday ∧ now < now / 1440 * 1440 + hour * 60 + minute
  · rw [if_pos hc]
    refine ⟨hc.2, by omega, by omega, ?_⟩
    intro t ht hwt hmt
    omega
  · rw [if_neg hc]
    by_cases hd : (weekday : Int) - (((now / 1440 + 4) % 7 : Nat) : Int) ≤ 0
    · rw [if_pos hd]
      refine ⟨by omega, by omega, by omega, ?_⟩
      intro t ht hwt hmt
      omega
    · rw [if_neg hd]
      refine ⟨by omega, by omega, by omega, ?_⟩
      intro t ht hwt hmt
      omega

/-- C8 witness: a concrete instant (Monday 00:10 of the epoch week viewed in
minutes) asking for Sunday 19:00. -/
theorem claim8_next_occurrence_correct_witness :
    5770 < nextOccurrence 5770 0 19 0 ∧
    weekdayOf (nextOccurrence 5770 0 19 0) = 0 ∧
    nextOccurrence 5770 0 19 0 % 1440 = 19 * 60 + 0 ∧
    (∀ t, 5770 < t → weekdayOf t = 0 → t % 1440 = 19 * 60 + 0 →
      nextOccurrence 5770 0 19 0 ≤ t) :=
  claim8_next_occurrence_correct 5770 0 19 0 (by decide) (by decide) (by decide)

open database bot in
/-- C4: a poll answer with no mapping for its poll id changes nothing; an
empty or non-"yes" answer deletes the responder's participant row for the
mapped group (a no-op when the row does not exist); a "yes" answer updates
the existing row's username and full name, or inserts a fresh row. -/
theorem claim4_poll_answer_semantics
    (db : DB) (ans : PollAnswer) (u : User) (newID : String) (now : Int)
    (hu : ans.user = some u) :
    (GetGroupIDByPollID db ans.pollID = none →
      HandlePollAnswer db ans newID now = db) ∧
    (∀ g, GetGroupIDByPollID db ans.pollID = some g →
      (answerRemoves ans.optionIDs = true →
        (HandlePollAnswer db ans newID now).participants =
          db.participants.filter (fun p => !(p.groupID == g && p.userID == u.id)) ∧
        (HandlePollAnswer db ans newID now).pairs = db.pairs ∧
        (HandlePollAnswer db ans newID now).pollMappings = db.pollMappings ∧
        ((∀ p ∈ db.participants, ¬(p.groupID = g ∧ p.userID = u.id)) →
          HandlePollAnswer db ans newID now = db)) ∧
      (answerRemoves ans.optionIDs = false →
        ((∃ q ∈ db.participants, q.groupID = g ∧ q.userID = u.id) →
          (HandlePollAnswer db ans newID now).participants =
            db.participants.map (fun q =>
              if q.groupID == g && q.userID == u.id then
                { q with username := u.username, fullName := answerFullName u }
              else q)) ∧
        ((∀ q ∈ db.participants, ¬(q.groupID = g ∧ q.userID = u.id)) →
          (HandlePollAnswer db ans newID now).participants =
            db.participants ++
              [⟨newID, g, u.id, u.username, answerFullName u, now⟩]))) := by
  constructor
  · intro hnone
    simp [HandlePollAnswer, hu, hnone]
  · intro g hsome
    constructor
    · intro hrem
      have hstep : HandlePollAnswer db ans newID now = DeleteParticipant db g u.id := by
        simp [HandlePollAnswer, hu, hsome, hrem]
      refine ⟨by simp [hstep, DeleteParticipant], by simp [hstep, DeleteParticipant],
        by simp [hstep, DeleteParticipant], ?_⟩
      intro habs
      rw [hstep]
      have : db.participants.filter
          (fun p => !(p.groupID == g && p.userID == u.id)) = db.participants := by
        refine List.filter_eq_self.mpr ?_
        intro p hp
        have := habs p hp
        simp only [Bool.not_eq_eq_eq_not, Bool.not_true, Bool.and_eq_false_iff]
        by_cases hpg : p.groupID = g
        · right
          simp only [beq_eq_false_iff_ne, ne_eq]
          intro hpu
          exact this ⟨hpg, hpu⟩
        · left
          simp [hpg]
      unfold DeleteParticipant
      rw [this]
    · intro hyes
      have hstep : HandlePollAnswer db ans newID now =
          CreateOrUpdateParticipant db
            ⟨newID, g, u.id, u.username, answerFullName u, now⟩ := by
        simp [HandlePollAnswer, hu, hsome, hyes]
      constructor
      · rintro ⟨q, hq, hqg, hqu⟩
        have hany : db.participants.any
            (fun p => p.groupID == g && p.userID == u.id) = true := by
          refine List.any_eq_true.mpr ⟨q, hq, ?_⟩
          simp [hqg, hqu]
        rw [hstep]
        simp [CreateOrUpdateParticipant, hany]
      · intro habs
        have hany : db.participants.any
            (fun p => p.groupID == g && p.userID == u.id) = false := by
          refine List.any_eq_false.mpr ?_
          intro p hp
          have := habs p hp
          simp only [Bool.and_eq_true, beq_iff_eq]
          intro hc
          exact this hc
        rw [hstep]
        simp [CreateOrUpdateParticipant, hany]

open database bot in
/-- C4 witness: a "no" answer (option 1) to poll "p1" mapped to group 1, by a
user with no participant row, leaves the database unchanged (delete is a
no-op). -/
theorem claim4_poll_answer_semantics_witness :
    HandlePollAnswer ⟨[pAlice], [], [⟨"p1", 1, 10⟩]⟩
      ⟨some ⟨2, utf8Bytes "Bob", [], utf8Bytes "bob"⟩, "p1", [1]⟩ "n" 0 =
      ⟨[pAlice], [], [⟨"p1", 1, 10⟩]⟩ := by
  have h := (claim4_poll_answer_semantics ⟨[pAlice], [], [⟨"p1", 1, 10⟩]⟩
      ⟨some ⟨2, utf8Bytes "Bob", [], utf8Bytes "bob"⟩, "p1", [1]⟩
      ⟨2, utf8Bytes "Bob", [], utf8Bytes "bob"⟩ "n" 0 rfl).2 1 (by decide)
  exact (h.1 rfl).2.2.2 (by decide)

open database bot in
/-- C5: `SendQuiz` deletes every existing poll mapping of the group before
storing the new poll's mapping; after two successful quiz sends with fresh
poll ids, only the second poll id resolves to the group and the first
resolves to nothing. -/
theorem claim5_send_quiz_mapping_replacement
    (db : DB) (groupID : Int) (o1 o2 : QuizOutcomes)
    (mid1 mid2 : Int) (pid1 pid2 : String)
    (h1 : o1.sendPollRes = some (mid1, pid1)) (h2 : o2.sendPollRes = some (mid2, pid2))
    (hc1 : o1.createMappingOk = true) (hc2 : o2.createMappingOk = true)
    (hd2 : o2.deleteOldMappingOk = true)
    (hfresh1 : ∀ pm ∈ db.pollMappings, pm.pollID ≠ pid1)
    (hfresh2 : ∀ pm ∈ db.pollMappings, pm.pollID ≠ pid2)
    (hne : pid1 ≠ pid2) :
    GetGroupIDByPollID (SendQuiz (SendQuiz db groupID o1) groupID o2) pid1 = none ∧
    GetGroupIDByPollID (SendQuiz (SendQuiz db groupID o1) groupID o2) pid2 = some groupID ∧
    ∀ pm ∈ (SendQuiz (SendQuiz db groupID o1) groupID o2).pollMappings,
      pm.groupID = groupID → pm.pollID = pid2 := by
  have hmem1 : ∀ pm ∈ (SendQuiz db groupID o1).pollMappings,
      pm ∈ db.pollMappings ∨ pm = ⟨pid1, groupID, mid1⟩ := by
    intro pm hpm
    simp only [SendQuiz, h1, hc1, if_true, CreatePollMapping, DeletePollMapping] at hpm
    by_cases hb : o1.deleteOldMappingOk = true
    · simp only [hb, if_true, List.mem_append, List.mem_filter,
        List.mem_singleton] at hpm
      rcases hpm with ⟨hpm, _⟩ | hpm
      · exact Or.inl hpm
      · exact Or.inr hpm
    · simp only [hb, if_false, List.mem_append, List.mem_singleton] at hpm
      rcases hpm with hpm | hpm
      · exact Or.inl hpm
      · exact Or.inr hpm
  have e2 : (SendQuiz (SendQuiz db groupID o1) groupID o2).pollMappings =
      ((SendQuiz db groupID o1).pollMappings.filter
        (fun pm => !(pm.groupID == groupID))) ++ [⟨pid2, groupID, mid2⟩] := by
    simp [SendQuiz, h2, hc2, hd2, CreatePollMapping, DeletePollMapping]
  have hfilter : ∀ pm ∈ (SendQuiz db groupID o1).pollMappings.filter
      (fun pm => !(pm.groupID == groupID)), pm ∈ db.pollMappings := by
    intro pm hpm
    rcases List.mem_filter.mp hpm with ⟨hpmm, hpmg⟩
    rcases hmem1 pm hpmm with h | h
    · exact h
    · subst h
      simp at hpmg
  refine ⟨?_, ?_, ?_⟩
  · unfold GetGroupIDByPollID
    rw [e2]
    have : (((SendQuiz db groupID o1).pollMappings.filter
        (fun pm => !(pm.groupID == groupID))) ++
          [(⟨pid2, groupID, mid2⟩ : PollMapping)]).find?
        (fun pm => pm.pollID == pid1) = none := by
      refine List.find?_eq_none.mpr ?_
      intro pm hpm
      rcases List.mem_append.mp hpm with h | h
      · have := hfresh1 pm (hfilter pm h)
        simp [this]
      · rcases List.mem_singleton.mp h with rfl
        simp [Ne.symm hne]
    rw [this]
    rfl
  · unfold GetGroupIDByPollID
    rw [e2, List.find?_append]
    have hleft : ((SendQuiz db groupID o1).pollMappings.filter
        (fun pm => !(pm.groupID == groupID))).find?
        (fun pm => pm.pollID == pid2) = none := by
      refine List.find?_eq_none.mpr ?_
      intro pm hpm
      have := hfresh2 pm (hfilter pm hpm)
      simp [this]
    rw [hleft]
    simp
  · intro pm hpm hg
    rw [e2] at hpm
    rcases List.mem_append.mp hpm with h | h
    · rcases List.mem_filter.mp h with ⟨_, hpmg⟩
      simp [hg] at hpmg
    · rcases List.mem_singleton.mp h with rfl
      rfl

open database bot in
/-- C5 witness: two successful quiz sends to group 1 with fresh poll ids
"q1" then "q2"; only "q2" resolves afterwards. -/
theorem claim5_send_quiz_mapping_replacement_witness :
    GetGroupIDByPollID (SendQuiz (SendQuiz exDB 1 ⟨true, some (10, "q1"), true, true⟩)
      1 ⟨true, some (11, "q2"), true, true⟩) "q1" = none ∧
    GetGroupIDByPollID (SendQuiz (SendQuiz exDB 1 ⟨true, some (10, "q1"), true, true⟩)
      1 ⟨true, some (11, "q2"), true, true⟩) "q2" = some 1 ∧
    ∀ pm ∈ (SendQuiz (SendQuiz exDB 1 ⟨true, some (10, "q1"), true, true⟩)
      1 ⟨true, some (11, "q2"), true, true⟩).pollMappings,
      pm.groupID = 1 → pm.pollID = "q2" :=
  claim5_send_quiz_mapping_replacement exDB 1 ⟨true, some (10, "q1"), true, true⟩
    ⟨true, some (11, "q2"), true, true⟩ 10 11 "q1" "q2" rfl rfl rfl rfl rfl
    (by decide) (by decide) (by decide)

open database bot in
/-- C7 counterexample: a private `/start` from user 5, who is not in the
(empty) admin set, still produces the `/start` reply — `/start` has no admin
gate, contradicting the claim that all commands reply only for admins. -/
theorem claim7_counterexample_start_without_admin :
    HandlePrivateCommand [] [] ⟨some 5, 5, utf8Bytes "/start"⟩ = [(startText, 5)] ∧
    isAdmin [] 5 = false := by
  constructor
  · rfl
  · rfl

open database bot in
/-- C7 amended: commands are matched exactly and case-sensitively; the
`/groups` listing and both group-chat workflows are admin-gated (non-admins
get an access-denied reply, respectively nothing), but `/start` replies to
every private sender. -/
theorem claim7_amended_command_gating :
    (∀ (admins groupIDs : List Int) (msg : Message) (uid : Int),
      msg.fromID = some uid → isAdmin admins uid = false →
      msg.text = utf8Bytes "/groups" →
      HandlePrivateCommand admins groupIDs msg = [(accessDeniedText, msg.chatID)]) ∧
    (∀ (admins : List Int) (msg : Message) (uid : Int),
      msg.fromID = some uid → isAdmin admins uid = false →
      HandleGroupCommand admins msg = none) ∧
    (∀ (admins : List Int) (msg : Message) (uid : Int),
      msg.fromID = some uid →
      msg.text ≠ utf8Bytes "/create_pairs" → msg.text ≠ utf8Bytes "/send_quiz" →
      HandleGroupCommand admins msg = none) ∧
    (∀ (admins : List Int) (msg : Message) (uid : Int),
      msg.fromID = some uid → isAdmin admins uid = true →
      msg.text = utf8Bytes "/create_pairs" →
      HandleGroupCommand admins msg = some (GroupAction.createPairsAction msg.chatID)) ∧
    (∀ (admins : List Int) (msg : Message) (uid : Int),
      msg.fromID = some uid → isAdmin admins uid = true →
      msg.text = utf8Bytes "/send_quiz" →
      HandleGroupCommand admins msg = some (GroupAction.sendQuizAction msg.chatID)) ∧
    (∀ (admins groupIDs : List Int) (msg : Message) (uid : Int),
      msg.fromID = some uid → msg.text = utf8Bytes "/start" →
      HandlePrivateCommand admins groupIDs msg = [(startText, msg.chatID)]) := by
  refine ⟨?_, ?_, ?_, ?_, ?_, ?_⟩
  · intro admins groupIDs msg uid hf ha ht
    have hne : ¬ msg.text = utf8Bytes "/start" := by
      rw [ht]; decide
    simp only [HandlePrivateCommand, hf, hne, ht, ha, if_false]
    simp [ha]
    intro h
    exact absurd h (by decide)
  · intro admins msg uid hf ha
    simp [HandleGroupCommand, hf, ha]
  · intro admins msg uid hf h1 h2
    by_cases ha : isAdmin admins uid
    · simp [HandleGroupCommand, hf, ha, h1, h2]
    · simp [HandleGroupCommand, hf, ha]
  · intro admins msg uid hf ha ht
    simp [HandleGroupCommand, hf, ha, ht]
  · intro admins msg uid hf ha ht
    have hne : ¬ msg.text = utf8Bytes "/create_pairs" := by
      rw [ht]; decide
    simp only [HandleGroupCommand, hf, ha, hne, ht]
    simp
    decide
  · intro admins groupIDs msg uid hf ht
    simp [HandlePrivateCommand, hf, ht]

open database bot in
/-- C7 amended witness: concrete instances of each gating fact. -/
theorem claim7_amended_command_gating_witness :
    HandlePrivateCommand [1] [] ⟨some 2, 2, utf8Bytes "/groups"⟩ =
      [(accessDeniedText, 2)] ∧
    HandleGroupCommand [1] ⟨some 2, -100, utf8Bytes "/create_pairs"⟩ = none ∧
    HandleGroupCommand [1] ⟨some 1, -100, utf8Bytes "/Create_Pairs"⟩ = none ∧
    HandleGroupCommand [1] ⟨some 1, -100, utf8Bytes "/create_pairs"⟩ =
      some (GroupAction.createPairsAction (-100)) ∧
    HandleGroupCommand [1] ⟨some 1, -100, utf8Bytes "/send_quiz"⟩ =
      some (GroupAction.sendQuizAction (-100)) ∧
    HandlePrivateCommand [1] [] ⟨some 2, 2, utf8Bytes "/start"⟩ = [(startText, 2)] :=
  ⟨claim7_amended_command_gating.1 [1] [] _ 2 rfl (by decide) rfl,
   claim7_amended_command_gating.2.1 [1] _ 2 rfl (by decide),
   claim7_amended_command_gating.2.2.1 [1] _ 1 rfl (by decide) (by decide),
   claim7_amended_command_gating.2.2.2.1 [1] _ 1 rfl (by decide) rfl,
   claim7_amended_command_gating.2.2.2.2.1 [1] _ 1 rfl (by decide) rfl,
   claim7_amended_command_gating.2.2.2.2.2 [1] [] _ 2 rfl rfl⟩

open database bot in
/-- C3 counterexample: in the two-participant example run where one pair is
selected but persistence fails, `CreatePairs` returns early — clearing is
never attempted and the group's participant pool is left non-empty. -/
theorem claim3_counterexample_save_failure_blocks_cleanup :
    (filterUniquePairs (GetAvailablePairs exDB 1)).1 ≠ [] ∧
    (bot.CreatePairs exDB 1 exOutcomesSaveFail ["x"] "2026-10-06" 0).clearAttempted =
      false ∧
    (bot.CreatePairs exDB 1 exOutcomesSaveFail ["x"] "2026-10-06" 0).db.participants ≠
      [] := by
  refine ⟨by decide, by decide, by decide⟩

open database bot in
/-- C3 amended: once persisting the pairs has succeeded, the remaining steps
run independently of each other's outcomes — the participant pool is cleared
(and ends empty when the clearing delete itself succeeds) regardless of the
message-send, participant-query, unpin and mapping-deletion outcomes, and a
found mapping is unpinned and deleted even when unpinning fails; but a
persistence failure aborts the run before any cleanup. -/
theorem claim3_amended_cleanup_after_save
    (db : DB) (groupID : Int) (o : CreatePairsOutcomes) (ids : List String)
    (weekStart : String) (now : Int) (l : List (Participant × Participant))
    (ha : o.availRes = some l)
    (hfp : (filterUniquePairs l).1 ≠ [])
    (hsave : o.saveOk = true)
    (hclear : o.clearOk = true) :
    (bot.CreatePairs db groupID o ids weekStart now).clearAttempted = true ∧
    (bot.CreatePairs db groupID o ids weekStart now).db.participants.filter
      (fun p => p.groupID == groupID) = [] ∧
    (o.getMappingOk = true → GetPollMappingByGroupID db groupID ≠ none →
      (bot.CreatePairs db groupID o ids weekStart now).unpinAttempted = true ∧
      (bot.CreatePairs db groupID o ids weekStart now).deleteMappingAttempted = true) := by
  have hl : ¬ l = [] := by
    intro h
    subst h
    exact hfp rfl
  have hclean : ∀ (xs : List Participant),
      (xs.filter (fun p => !(p.groupID == groupID))).filter
        (fun p => p.groupID == groupID) = [] := by
    intro xs
    rw [List.filter_filter]
    refine List.filter_eq_nil_iff.mpr ?_
    intro p _
    simp
  simp only [bot.CreatePairs, ha, if_neg hl, if_neg hfp, hsave, Bool.not_true,
    Bool.false_eq_true, if_false, hclear, if_true]
  refine ⟨trivial, ?_, ?_⟩
  · by_cases hg : o.getMappingOk = true
    · simp only [hg, Bool.not_true, Bool.false_eq_true, if_false]
      cases hm : GetPollMappingByGroupID
          (database.CreatePairs db (savePairRows (filterUniquePairs l).1 groupID
            weekStart ids now)) groupID with
      | none => simp [ClearAllParticipants, hclean]
      | some pm =>
        by_cases hd : o.deleteMappingOk = true <;>
          simp [hd, ClearAllParticipants, DeletePollMapping, hclean]
    · have hg' : o.getMappingOk = false := by
        cases hgm : o.getMappingOk
        · rfl
        · exact absurd hgm hg
      simp [hg', ClearAllParticipants, hclean]
  · intro hg hpm
    have hsame : GetPollMappingByGroupID
        (database.CreatePairs db (savePairRows (filterUniquePairs l).1 groupID
          weekStart ids now)) groupID = GetPollMappingByGroupID db groupID := rfl
    simp only [hg, Bool.not_true, Bool.false_eq_true, if_false, hsame]
    cases hm : GetPollMappingByGroupID db groupID with
    | none => exact absurd hm hpm
    | some pm => by_cases hd : o.deleteMappingOk = true <;> simp [hd]

open database bot in
/-- C3 amended witness: a run on the example database with a live poll
mapping in which the message send, the participant query, the unpin and the
mapping deletion all fail, yet the pool is cleared and the unpin and
deletion were attempted. -/
theorem claim3_amended_cleanup_after_save_witness :
    (bot.CreatePairs ⟨[pAlice, pBob], [], [⟨"p1", 1, 10⟩]⟩ 1 exOutcomesLateFailures
      ["x"] "2026-10-06" 0).clearAttempted = true ∧
    (bot.CreatePairs ⟨[pAlice, pBob], [], [⟨"p1", 1, 10⟩]⟩ 1 exOutcomesLateFailures
      ["x"] "2026-10-06" 0).db.participants.filter (fun p => p.groupID == 1) = [] ∧
    (bot.CreatePairs ⟨[pAlice, pBob], [], [⟨"p1", 1, 10⟩]⟩ 1 exOutcomesLateFailures
      ["x"] "2026-10-06" 0).unpinAttempted = true ∧
    (bot.CreatePairs ⟨[pAlice, pBob], [], [⟨"p1", 1, 10⟩]⟩ 1 exOutcomesLateFailures
      ["x"] "2026-10-06" 0).deleteMappingAttempted = true := by
  have h := claim3_amended_cleanup_after_save ⟨[pAlice, pBob], [], [⟨"p1", 1, 10⟩]⟩ 1
    exOutcomesLateFailures ["x"] "2026-10-06" 0 (GetAvailablePairs exDB 1)
    rfl (by decide) rfl rfl
  exact ⟨h.1, h.2.1, (h.2.2 rfl (by decide)).1, (h.2.2 rfl (by decide)).2⟩

open database bot in
/-- C10: the summary message handed to `sendMessage` is at most 4000 bytes
plus the fixed truncation suffix (under Telegram's 4096 limit); an overlong
message is cut at the fixed byte offset 4000; and that cut can fall inside a
multi-byte UTF-8 character, as the concrete long-username example shows
(byte 4000 is a continuation byte of the multi-byte separator character). -/
theorem claim10_summary_truncation :
    (∀ (db : DB) (groupID : Int) (getAllOk : Bool)
      (fp : List (Participant × Participant)) (used : List Int),
      (truncateMessage (appendUnpairedMessage db getAllOk (buildPairsMessage fp)
        groupID used)).length ≤ 4000 + truncationSuffix.length) ∧
    (∀ m : GoStr, 4000 < m.length →
      truncateMessage m = m.take 4000 ++ truncationSuffix) ∧
    (4000 < longPairMessage.length ∧
      isUtf8ContinuationByte (longPairMessage.getD 4000 0) = true) := by
  have hsep : utf8Bytes " ✖️ " = [32] ++ [226, 156, 150, 239, 184, 143, 32] := by decide
  have hmsg0 : longPairMessage =
      (utf8Bytes "🎉 Пары Random Coffee на эту неделю ☕️\n\n" ++
        (((((utf8Bytes "▫️ " ++ (utf8Bytes "@" ++ List.replicate 3929 97)) ++
          utf8Bytes " ✖️ ") ++ (utf8Bytes "@" ++ [98])) ++ utf8Bytes "\n\n") ++ [])) ++
      utf8Bytes "💬 Напиши прямо сейчас собеседнику в личку и договорись о месте и времени!" :=
    rfl
  have hsplit : longPairMessage =
      (utf8Bytes "🎉 Пары Random Coffee на эту неделю ☕️\n\n" ++
        (utf8Bytes "▫️ " ++ ((utf8Bytes "@" ++ List.replicate 3929 97) ++ [32]))) ++
      ([226, 156, 150, 239, 184, 143, 32] ++ ((utf8Bytes "@" ++ [98]) ++
        (utf8Bytes "\n\n" ++
          utf8Bytes "💬 Напиши прямо сейчас собеседнику в личку и договорись о месте и времени!"))) := by
    rw [hmsg0, hsep]
    simp only [List.append_assoc, List.append_nil, List.nil_append]
  have hhdr : (utf8Bytes "🎉 Пары Random Coffee на эту неделю ☕️\n\n").length = 61 := by
    decide
  have hpre : (utf8Bytes "▫️ ").length = 7 := by decide
  have hat : (utf8Bytes "@").length = 1 := by decide
  have hnn : (utf8Bytes "\n\n").length = 2 := by decide
  have hftr : (utf8Bytes
      "💬 Напиши прямо сейчас собеседнику в личку и договорись о месте и времени!").length =
      135 := by decide
  have hAlen : ((utf8Bytes "🎉 Пары Random Coffee на эту неделю ☕️\n\n" ++
      (utf8Bytes "▫️ " ++ ((utf8Bytes "@" ++ List.replicate 3929 97) ++ [32])))).length =
      3999 := by
    simp only [List.length_append, List.length_replicate, hhdr, hpre, hat,
      List.length_cons, List.length_nil]
  refine ⟨?_, ?_, ?_, ?_⟩
  · intro db groupID getAllOk fp used
    unfold truncateMessage
    by_cases hlen :
        4000 < (appendUnpairedMessage db getAllOk (buildPairsMessage fp)
          groupID used).length
    · rw [if_pos hlen]
      simp only [List.length_append, List.length_take]
      omega
    · rw [if_neg hlen]
      omega
  · intro m hm
    unfold truncateMessage
    rw [if_pos hm]
  · rw [hsplit]
    simp only [List.length_append, hAlen, hat, hnn, hftr, List.length_cons,
      List.length_nil]
    omega
  · have hget : longPairMessage.getD 4000 0 = 156 := by
      rw [hsplit, List.getD_append_right _ _ _ _ (by rw [hAlen]; omega), hAlen]
      rfl
    rw [hget]
    rfl

open database bot in
/-- C10 witness: the concrete overlong message is cut exactly at byte 4000
with the fixed suffix appended, and the general bound applies to it. -/
theorem claim10_summary_truncation_witness :
    truncateMessage longPairMessage = longPairMessage.take 4000 ++ truncationSuffix ∧
    (truncateMessage (appendUnpairedMessage dbNoParts true
      (buildPairsMessage [(pLong, pShort)]) 1 [])).length ≤
      4000 + truncationSuffix.length :=
  ⟨claim10_summary_truncation.2.1 longPairMessage claim10_summary_truncation.2.2.1,
   claim10_summary_truncation.1 dbNoParts 1 true [(pLong, pShort)] []⟩

open database bot in
/-- C2: with no prior pairing history and distinct user ids within the
group, running the pairing engine (`GetAvailablePairs` then
`filterUniquePairs`) on any shuffle of the candidate list pairs every
participant exactly once when the participant count is even, and leaves
exactly one participant unpaired when the count is odd. -/
theorem claim2_even_odd_pairing
    (db : DB) (groupID : Int) (cand : List (Participant × Participant))
    (hnohist : ∀ h ∈ db.pairs, h.groupID ≠ groupID)
    (hnodup : ((GetAllParticipants db groupID).map (fun p => p.userID)).Nodup)
    (hperm : cand.Perm (GetAvailablePairs db groupID)) :
    ((GetAllParticipants db groupID).length % 2 = 0 →
      ∀ p ∈ GetAllParticipants db groupID,
        pairedCount (filterUniquePairs cand).1 p = 1) ∧
    ((GetAllParticipants db groupID).length % 2 = 1 →
      ∃ q ∈ GetAllParticipants db groupID,
        pairedCount (filterUniquePairs cand).1 q = 0 ∧
        ∀ p ∈ GetAllParticipants db groupID, p ≠ q →
          pairedCount (filterUniquePairs cand).1 p = 1) := by
  unfold filterUniquePairs
  have hmemparts : ∀ p : Participant, p ∈ GetAllParticipants db groupID ↔
      p ∈ db.participants ∧ p.groupID = groupID := by
    intro p
    simp [GetAllParticipants, List.mem_filter]
  have hstruct : ∀ pr ∈ cand, pr.1 ∈ GetAllParticipants db groupID ∧
      pr.2 ∈ GetAllParticipants db groupID ∧ pr.1.userID < pr.2.userID := by
    intro pr hpr
    have hm := (mem_getAvailablePairs db groupID pr).mp (hperm.mem_iff.mp hpr)
    exact ⟨(hmemparts pr.1).mpr ⟨hm.1, hm.2.1⟩,
      (hmemparts pr.2).mpr ⟨hm.2.2.1, hm.2.2.2.1⟩, hm.2.2.2.2.1⟩
  have hcomplete : ∀ p q, p ∈ GetAllParticipants db groupID →
      q ∈ GetAllParticipants db groupID → p.userID < q.userID → (p, q) ∈ cand := by
    intro p q hp hq hlt
    refine hperm.mem_iff.mpr ((mem_getAvailablePairs db groupID (p, q)).mpr ?_)
    obtain ⟨hp1, hp2⟩ := (hmemparts p).mp hp
    obtain ⟨hq1, hq2⟩ := (hmemparts q).mp hq
    refine ⟨hp1, hp2, hq1, hq2, hlt, ?_⟩
    intro h hh
    simp [histBlocks, hnohist h hh]
  have hne' : ∀ pr ∈ cand, pr.1.userID ≠ pr.2.userID := by
    intro pr hpr
    have := (hstruct pr hpr).2.2
    omega
  have hfpsub : ∀ pr ∈ (filterUniquePairsAux cand []).1, pr ∈ cand :=
    fuAux_sel_subset cand []
  have hfpne : ∀ pr ∈ (filterUniquePairsAux cand []).1, pr.1.userID ≠ pr.2.userID :=
    fun pr hpr => hne' pr (hfpsub pr hpr)
  have husednodup : (filterUniquePairsAux cand []).2.Nodup :=
    fuAux_used_nodup cand [] (by simp) hne'
  have hpermused : (filterUniquePairsAux cand []).2.Perm
      (pairUids (filterUniquePairsAux cand []).1) := by
    have h := fuAux_used_perm cand []
    simpa using h
  have hnodupUids : (pairUids (filterUniquePairsAux cand []).1).Nodup :=
    hpermused.nodup_iff.mp husednodup
  have husedmem : ∀ x : Int, x ∈ (filterUniquePairsAux cand []).2 ↔
      ∃ pr ∈ (filterUniquePairsAux cand []).1, x = pr.1.userID ∨ x = pr.2.userID := by
    intro x
    have h := fuAux_mem_used cand [] x
    simpa using h
  have hbridge : ∀ p : Participant, pairedCount (filterUniquePairsAux cand []).1 p =
      (pairUids (filterUniquePairsAux cand []).1).countP (fun y => y == p.userID) :=
    fun p => (countP_pairUids _ p.userID hfpne).symm
  have hcount_le : ∀ p : Participant, pairedCount (filterUniquePairsAux cand []).1 p ≤ 1 := by
    intro p
    rw [hbridge p]
    exact List.nodup_iff_count_le_one.mp hnodupUids p.userID
  have hmatched_count : ∀ p : Participant, p.userID ∈ (filterUniquePairsAux cand []).2 →
      pairedCount (filterUniquePairsAux cand []).1 p = 1 := by
    intro p hp
    have hmem : p.userID ∈ pairUids (filterUniquePairsAux cand []).1 :=
      hpermused.mem_iff.mp hp
    have hpos : 0 < (pairUids (filterUniquePairsAux cand []).1).countP
        (fun y => y == p.userID) :=
      List.countP_pos_iff.mpr ⟨p.userID, hmem, by simp⟩
    have hle := hcount_le p
    rw [hbridge p] at hle ⊢
    omega
  have hused_sub_uids : ∀ x ∈ (filterUniquePairsAux cand []).2,
      x ∈ (GetAllParticipants db groupID).map (fun p => p.userID) := by
    intro x hx
    obtain ⟨pr, hpr, hor⟩ := (husedmem x).mp hx
    have hs := hstruct pr (hfpsub pr hpr)
    rcases hor with rfl | rfl
    · exact List.mem_map.mpr ⟨pr.1, hs.1, rfl⟩
    · exact List.mem_map.mpr ⟨pr.2, hs.2.1, rfl⟩
  have hmatchedlen : ((GetAllParticipants db groupID).filter
      (fun p => decide (p.userID ∈ (filterUniquePairsAux cand []).2))).length =
      (filterUniquePairsAux cand []).2.length :=
    length_filter_userID_mem _ _ hnodup husednodup hused_sub_uids
  have husedlen : (filterUniquePairsAux cand []).2.length =
      2 * (filterUniquePairsAux cand []).1.length := by
    rw [hpermused.length_eq, pairUids_length]
  have hpartsnodup : (GetAllParticipants db groupID).Nodup :=
    List.Nodup.of_map _ hnodup
  have hinj := List.inj_on_of_nodup_map hnodup
  have huniq_unmatched : ∀ p q, p ∈ GetAllParticipants db groupID →
      q ∈ GetAllParticipants db groupID →
      p.userID ∉ (filterUniquePairsAux cand []).2 →
      q.userID ∉ (filterUniquePairsAux cand []).2 → p = q := by
    intro p q hp hq hpu hqu
    by_contra hneq
    have hfneq : p.userID ≠ q.userID := fun he => hneq (hinj hp hq he)
    rcases lt_trichotomy p.userID q.userID with hlt | he | hlt
    · rcases fuAux_covers cand [] (p, q) (hcomplete p q hp hq hlt) with h | h
      · exact hpu h
      · exact hqu h
    · exact hfneq he
    · rcases fuAux_covers cand [] (q, p) (hcomplete q p hq hp hlt) with h | h
      · exact hqu h
      · exact hpu h
  have hsplitlen : (GetAllParticipants db groupID).length =
      ((GetAllParticipants db groupID).filter
        (fun p => decide (p.userID ∈ (filterUniquePairsAux cand []).2))).length +
      ((GetAllParticipants db groupID).filter
        (fun p => !(decide (p.userID ∈ (filterUniquePairsAux cand []).2)))).length :=
    List.length_eq_length_filter_add _
  have humchar : ∀ p ∈ (GetAllParticipants db groupID).filter
      (fun p => !(decide (p.userID ∈ (filterUniquePairsAux cand []).2))),
      p ∈ GetAllParticipants db groupID ∧
        p.userID ∉ (filterUniquePairsAux cand []).2 := by
    intro p hp
    obtain ⟨hp1, hp2⟩ := List.mem_filter.mp hp
    simp only [Bool.not_eq_eq_eq_not, Bool.not_true, decide_eq_false_iff_not] at hp2
    exact ⟨hp1, hp2⟩
  have humlen : ((GetAllParticipants db groupID).filter
      (fun p => !(decide (p.userID ∈ (filterUniquePairsAux cand []).2)))).length ≤ 1 := by
    cases hum : (GetAllParticipants db groupID).filter
        (fun p => !(decide (p.userID ∈ (filterUniquePairsAux cand []).2))) with
    | nil => simp
    | cons a rest =>
      cases rest with
      | nil => simp
      | cons b rest2 =>
        exfalso
        have ha := humchar a (by rw [hum]; simp)
        have hb := humchar b (by rw [hum]; simp)
        have hab : a = b := huniq_unmatched a b ha.1 hb.1 ha.2 hb.2
        have hnd : ((GetAllParticipants db groupID).filter
            (fun p => !(decide (p.userID ∈ (filterUniquePairsAux cand []).2)))).Nodup :=
          hpartsnodup.filter _
        rw [hum] at hnd
        rcases List.nodup_cons.mp hnd with ⟨hna, _⟩
        exact hna (hab ▸ List.mem_cons_self b rest2)
  constructor
  · intro heven p hp
    have h0 : ((GetAllParticipants db groupID).filter
        (fun p => !(decide (p.userID ∈ (filterUniquePairsAux cand []).2)))).length = 0 := by
      omega
    have hum := List.length_eq_zero.mp h0
    have hu : p.userID ∈ (filterUniquePairsAux cand []).2 := by
      by_contra hc
      have hpm : p ∈ (GetAllParticipants db groupID).filter
          (fun p => !(decide (p.userID ∈ (filterUniquePairsAux cand []).2))) :=
        List.mem_filter.mpr ⟨hp, by simp [hc]⟩
      rw [hum] at hpm
      cases hpm
    exact hmatched_count p hu
  · intro hodd
    have h1 : ((GetAllParticipants db groupID).filter
        (fun p => !(decide (p.userID ∈ (filterUniquePairsAux cand []).2)))).length = 1 := by
      omega
    obtain ⟨q, hq⟩ := List.length_eq_one.mp h1
    have hqc := humchar q (by rw [hq]; simp)
    refine ⟨q, hqc.1, ?_, ?_⟩
    · refine List.countP_eq_zero.mpr ?_
      intro pr hpr hpred
      simp only [Bool.or_eq_true, beq_iff_eq] at hpred
      refine hqc.2 ((husedmem q.userID).mpr ⟨pr, hpr, ?_⟩)
      rcases hpred with h | h
      · exact Or.inl h.symm
      · exact Or.inr h.symm
    · intro p hp hpq
      have hu : p.userID ∈ (filterUniquePairsAux cand []).2 := by
        by_contra hc
        have hpm : p ∈ (GetAllParticipants db groupID).filter
            (fun p => !(decide (p.userID ∈ (filterUniquePairsAux cand []).2))) :=
          List.mem_filter.mpr ⟨hp, by simp [hc]⟩
        rw [hq] at hpm
        have : p = q := by simpa using hpm
        exact hpq this
      exact hmatched_count p hu

open database bot in
/-- C2 witness: the two-participant example group with no history — the even
case applies to the canonical candidate order. -/
theorem claim2_even_odd_pairing_witness :
    ((GetAllParticipants exDB 1).length % 2 = 0 →
      ∀ p ∈ GetAllParticipants exDB 1,
        pairedCount (filterUniquePairs (GetAvailablePairs exDB 1)).1 p = 1) ∧
    ((GetAllParticipants exDB 1).length % 2 = 1 →
      ∃ q ∈ GetAllParticipants exDB 1,
        pairedCount (filterUniquePairs (GetAvailablePairs exDB 1)).1 q = 0 ∧
        ∀ p ∈ GetAllParticipants exDB 1, p ≠ q →
          pairedCount (filterUniquePairs (GetAvailablePairs exDB 1)).1 p = 1) :=
  claim2_even_odd_pairing exDB 1 (GetAvailablePairs exDB 1)
    (by decide) (by decide) (List.Perm.refl _)
